import Mathlib

/-!
Verification of the binder-rust Parcel / Binder client library.

Shallow embedding of the library's serialization core (`src/parcel.rs`,
`src/parcelable.rs`, the `parcelable_derive` code generator) and of the
Binder driver client's inbound-command loop (`src/binder.rs`), together
with proofs and refutations of the specification's claims.

Machine bytes are modelled as `Nat` values (< 256), buffers as `List Nat`,
`usize` as a 64-bit quantity (the library targets 64-bit Linux, and
`write_usize` unconditionally writes 8 bytes).  Fallible reads return
`Except Error`; writes into a `Cursor<Vec<u8>>` cannot fail and are total.
-/

namespace BinderRust

/-- `Error` from `src/lib.rs`.  The two `std::io` / UTF conversion wrappers
are modelled as plain tags. -/
inductive Error
  | StdioError
  | Utf16Error
  | Utf8Error
  | DeserializationError
  | BadEnumValue
deriving DecidableEq

/-! ## Little-endian byte encodings -/

/-- Little-endian byte encoding of `v` on `n` bytes (extra high bits of `v`
are dropped, exactly as a `u8`-wise store would). -/
def leBytes : Nat → Nat → List Nat
  | 0, _ => []
  | n + 1, v => v % 256 :: leBytes n (v / 256)

/-- Little-endian value of a byte list. -/
def leVal : List Nat → Nat
  | [] => 0
  | b :: bs => b % 256 + 256 * leVal bs

theorem leBytes_length (n v : Nat) : (leBytes n v).length = n := by
  induction n generalizing v with
  | zero => rfl
  | succ k ih => simp [leBytes, ih]

theorem leVal_leBytes {n v : Nat} (h : v < 256 ^ n) : leVal (leBytes n v) = v := by
  induction n generalizing v with
  | zero => simp [Nat.pow_zero] at h; simp [leBytes, leVal, h]
  | succ k ih =>
    have hdiv : v / 256 < 256 ^ k := by
      rw [Nat.div_lt_iff_lt_mul (by omega)]
      calc v < 256 ^ (k + 1) := h
        _ = 256 ^ k * 256 := by ring
    simp [leBytes, leVal, ih hdiv]
    omega

/-- Interpret a 32-bit unsigned value as a two's-complement `i32`. -/
def toSigned32 (n : Nat) : Int :=
  if n < 2 ^ 31 then (n : Int) else (n : Int) - 2 ^ 32

/-- Rust cast `usize as i32` (truncating two's-complement reinterpretation). -/
def usizeAsI32 (n : Nat) : Int := toSigned32 (n % 2 ^ 32)

/-- The `u32` bit pattern of an `i32` (what `write_i32` stores). -/
def i32AsU32 (x : Int) : Nat := (x % 2 ^ 32).toNat

theorem toSigned32_i32AsU32 {x : Int} (h1 : -(2 ^ 31) ≤ x) (h2 : x < 2 ^ 31) :
    toSigned32 (i32AsU32 x) = x := by
  unfold toSigned32 i32AsU32
  omega

theorem usizeAsI32_small {n : Nat} (h : n < 2 ^ 31) : usizeAsI32 n = (n : Int) := by
  unfold usizeAsI32 toSigned32
  omega

theorem i32AsU32_lt (x : Int) : i32AsU32 x < 2 ^ 32 := by
  unfold i32AsU32; omega

/-! ## Parcel (`src/parcel.rs`)

A `Parcel` owns a `Cursor<Vec<u8>>` (byte buffer plus one read/write
position) and the auxiliary `object_offsets` table. -/

structure Parcel where
  data : List Nat
  pos : Nat
  object_offsets : List Nat
deriving DecidableEq

namespace Parcel

/-- `Parcel::empty`. -/
def empty : Parcel := ⟨[], 0, []⟩

/-- `Parcel::from_slice` (note: the cursor starts at position 0). -/
def from_slice (bs : List Nat) : Parcel := ⟨bs, 0, []⟩

/-- `Parcel::len`. -/
def len (p : Parcel) : Nat := p.data.length

/-- `Parcel::offsets_len`. -/
def offsets_len (p : Parcel) : Nat := p.object_offsets.length

/-- `Parcel::is_empty`. -/
def is_empty (p : Parcel) : Bool := p.data.isEmpty

/-- `Parcel::has_unread_data`: `position != len`. -/
def has_unread_data (p : Parcel) : Bool := p.pos != p.data.length

/-- `std::io::Write` for `Cursor<Vec<u8>>`: write `bs` at the cursor
position, overwriting existing bytes and extending the buffer as needed
(a gap beyond the end is zero-filled), then advance the position. -/
def cursorWrite (p : Parcel) (bs : List Nat) : Parcel :=
  let padded := p.data ++ List.replicate (p.pos - p.data.length) 0
  { p with
    data := padded.take p.pos ++ bs ++ padded.drop (p.pos + bs.length),
    pos := p.pos + bs.length }

/-- `std::io::Read` for `Cursor<Vec<u8>>` into a pre-allocated buffer
`buf`: copies `min buf.length (len - pos)` bytes to the front of `buf`,
leaves the rest of `buf` untouched, and advances the position by the
number of bytes actually read. -/
def cursorReadInto (p : Parcel) (buf : List Nat) : List Nat × Parcel :=
  let avail := (p.data.drop p.pos).take buf.length
  (avail ++ buf.drop avail.length, { p with pos := p.pos + avail.length })

/-- `Read::read_exact` semantics used by the `byteorder` primitive reads:
fails on a short buffer. -/
def readExact (p : Parcel) (n : Nat) : Except Error (List Nat × Parcel) :=
  if p.pos + n ≤ p.data.length then
    .ok ((p.data.drop p.pos).take n, { p with pos := p.pos + n })
  else .error .StdioError

/-- `Parcel::write_u8`. -/
def write_u8 (p : Parcel) (v : Nat) : Parcel := cursorWrite p [v % 256]

/-- `Parcel::write_u16` (little endian). -/
def write_u16 (p : Parcel) (v : Nat) : Parcel := cursorWrite p (leBytes 2 v)

/-- `Parcel::write_u32` (little endian). -/
def write_u32 (p : Parcel) (v : Nat) : Parcel := cursorWrite p (leBytes 4 v)

/-- `Parcel::write_u64` (little endian). -/
def write_u64 (p : Parcel) (v : Nat) : Parcel := cursorWrite p (leBytes 8 v)

/-- `Parcel::write_usize`: always written as a `u64` (8 bytes). -/
def write_usize (p : Parcel) (v : Nat) : Parcel := cursorWrite p (leBytes 8 v)

/-- `Parcel::write_i32`: the two's-complement bit pattern, little endian. -/
def write_i32 (p : Parcel) (v : Int) : Parcel := cursorWrite p (leBytes 4 (i32AsU32 v))

/-- `Parcel::write_bool`: `write_u32(data as u32)`. -/
def write_bool (p : Parcel) (b : Bool) : Parcel := p.write_u32 (if b then 1 else 0)

/-- `Parcel::write` of a byte slice: zero-pad to `(len + 3) & !3` bytes. -/
def write (p : Parcel) (bs : List Nat) : Parcel :=
  let padded_len := bs.length + 3 - (bs.length + 3) % 4
  let out := if padded_len > bs.length then bs ++ List.replicate (padded_len - bs.length) 0 else bs
  cursorWrite p out

/-- `Parcel::push_object`: record the current cursor position in the
object-offsets table. -/
def push_object (p : Parcel) : Parcel :=
  { p with object_offsets := p.object_offsets ++ [p.pos] }

/-- `Parcel::write_object`: push the current position onto the offsets
table, then write the object's raw bytes (no padding). -/
def write_object (p : Parcel) (objBytes : List Nat) : Parcel :=
  cursorWrite { p with object_offsets := p.object_offsets ++ [p.pos] } objBytes

/-- `Parcel::append_parcel`: write the other parcel's bytes at the current
cursor position and append its offsets shifted by that position. -/
def append_parcel (p other : Parcel) : Parcel :=
  let current_position := p.pos
  let p1 := cursorWrite p other.data
  { p1 with
    object_offsets :=
      p1.object_offsets ++ other.object_offsets.map (fun o => o + current_position) }

/-- `Parcel::read_u8`. -/
def read_u8 (p : Parcel) : Except Error (Nat × Parcel) :=
  (readExact p 1).map fun x => (leVal x.1, x.2)

/-- `Parcel::read_u16`. -/
def read_u16 (p : Parcel) : Except Error (Nat × Parcel) :=
  (readExact p 2).map fun x => (leVal x.1, x.2)

/-- `Parcel::read_u32`. -/
def read_u32 (p : Parcel) : Except Error (Nat × Parcel) :=
  (readExact p 4).map fun x => (leVal x.1, x.2)

/-- `Parcel::read_u64`. -/
def read_u64 (p : Parcel) : Except Error (Nat × Parcel) :=
  (readExact p 8).map fun x => (leVal x.1, x.2)

/-- `Parcel::read_usize` on a 64-bit host: reads a `u64`. -/
def read_usize (p : Parcel) : Except Error (Nat × Parcel) := p.read_u64

/-- `Parcel::read_i32`. -/
def read_i32 (p : Parcel) : Except Error (Int × Parcel) :=
  (readExact p 4).map fun x => (toSigned32 (leVal x.1), x.2)

/-- `Parcel::read`: round the request up to a multiple of four, allocate a
zeroed buffer of that size, and fill it with whatever bytes remain
(`cursor.read` never fails; the tail of the buffer stays zero). -/
def read (p : Parcel) (size : Nat) : Except Error (List Nat × Parcel) :=
  let size := if size % 4 ≠ 0 then size + 4 - size % 4 else size
  .ok (cursorReadInto p (List.replicate size 0))

/-- `Parcel::read_without_alignment`: same as `read` without the rounding. -/
def read_without_alignment (p : Parcel) (size : Nat) : Except Error (List Nat × Parcel) :=
  .ok (cursorReadInto p (List.replicate size 0))

end Parcel

/-! ### Basic write lemmas -/

theorem cursorWrite_object_offsets (p : Parcel) (bs : List Nat) :
    (Parcel.cursorWrite p bs).object_offsets = p.object_offsets := rfl

/-- In the append-only state (cursor at the end of the buffer), a cursor
write is a plain append. -/
theorem cursorWrite_append {p : Parcel} (bs : List Nat) (h : p.pos = p.data.length) :
    Parcel.cursorWrite p bs =
      { data := p.data ++ bs, pos := p.data.length + bs.length,
        object_offsets := p.object_offsets } := by
  unfold Parcel.cursorWrite
  have h0 : p.pos - p.data.length = 0 := by omega
  have htake : (p.data ++ List.replicate 0 0).take p.pos = p.data := by
    simp [h]
  have hdrop : (p.data ++ List.replicate 0 0).drop (p.pos + bs.length) = [] := by
    simp [h]
  simp only [h0, htake, hdrop]
  simp [h]

/-! ## Strings

A Rust `&str` is a sequence of Unicode scalar values; we model it as a
`List Nat` of scalar values.  `str::len` is the UTF-8 byte length. -/

/-- UTF-8 byte length of one scalar value. -/
def utf8CharLen (c : Nat) : Nat :=
  if c < 0x80 then 1 else if c < 0x800 then 2 else if c < 0x10000 then 3 else 4

/-- `str::len`: the UTF-8 byte length of the string. -/
def utf8Len (s : List Nat) : Nat := (s.map utf8CharLen).sum

/-- UTF-8 encoding of one scalar value. -/
def utf8EncodeChar (c : Nat) : List Nat :=
  if c < 0x80 then [c]
  else if c < 0x800 then [0xC0 + c / 0x40, 0x80 + c % 0x40]
  else if c < 0x10000 then [0xE0 + c / 0x1000, 0x80 + c / 0x40 % 0x40, 0x80 + c % 0x40]
  else [0xF0 + c / 0x40000, 0x80 + c / 0x1000 % 0x40, 0x80 + c / 0x40 % 0x40, 0x80 + c % 0x40]

/-- `str::bytes`: the UTF-8 encoding of the string. -/
def utf8Encode (s : List Nat) : List Nat := (s.map utf8EncodeChar).flatten

/-- `char::encode_utf16` of one scalar value (one unit, or a surrogate
pair for supplementary-plane characters). -/
def encodeUtf16Char (c : Nat) : List Nat :=
  if c < 0x10000 then [c]
  else [0xD800 + (c - 0x10000) / 0x400, 0xDC00 + (c - 0x10000) % 0x400]

/-- `str::encode_utf16` of the whole string. -/
def encodeUtf16 (s : List Nat) : List Nat := (s.map encodeUtf16Char).flatten

/-- Number of UTF-16 code units of the string. -/
def utf16Len (s : List Nat) : Nat := (encodeUtf16 s).length

/-- `String::from_utf16`: decode UTF-16 code units, failing on a lone or
misplaced surrogate. -/
def decodeUtf16 : List Nat → Except Error (List Nat)
  | [] => .ok []
  | u :: rest =>
    if u < 0xD800 ∨ 0xE000 ≤ u then (decodeUtf16 rest).map (u :: ·)
    else if u < 0xDC00 then
      match rest with
      | u2 :: rest2 =>
        if 0xDC00 ≤ u2 ∧ u2 < 0xE000 then
          (decodeUtf16 rest2).map ((0x10000 + (u - 0xD800) * 0x400 + (u2 - 0xDC00)) :: ·)
        else .error .Utf16Error
      | [] => .error .Utf16Error
    else .error .Utf16Error

/-- `String::truncate (new_len)` where `new_len` counts UTF-8 BYTES: keep
the longest prefix of characters whose total UTF-8 length is at most `n`.
(Rust panics when `n` falls inside a character; the inputs considered in
this development always cut at a character boundary.) -/
def truncateUtf8 : List Nat → Nat → List Nat
  | _, 0 => []
  | [], _ => []
  | c :: rest, n => if utf8CharLen c ≤ n then c :: truncateUtf8 rest (n - utf8CharLen c) else []

/-- `chunks_exact(2)` + `u16::from_ne_bytes` on a little-endian host
(a trailing lone byte is dropped). -/
def chunks2ToU16 : List Nat → List Nat
  | b0 :: b1 :: rest => (b0 % 256 + 256 * (b1 % 256)) :: chunks2ToU16 rest
  | _ => []

namespace Parcel

/-- `Parcel::write_str16`: an i32 set to `string.len()` — the UTF-8 BYTE
length — then the UTF-16 code units little-endian, a `u16` 0 terminator,
and zero-padding to a four-byte boundary. -/
def write_str16 (p : Parcel) (s : List Nat) : Parcel :=
  let p := p.write_i32 (usizeAsI32 (utf8Len s))
  let s16 := ((encodeUtf16 s).map (leBytes 2)).flatten ++ leBytes 2 0
  let s16 := if s16.length % 4 ≠ 0 then s16 ++ List.replicate (4 - s16.length % 4) 0 else s16
  cursorWrite p s16

/-- `Parcel::write_str`: an i32 byte length, the UTF-8 bytes, a `u8` 0
terminator, and zero-padding to a four-byte boundary. -/
def write_str (p : Parcel) (s : List Nat) : Parcel :=
  let p := p.write_i32 (usizeAsI32 (utf8Len s))
  let s8 := utf8Encode s ++ [0]
  let s8 := if s8.length % 4 ≠ 0 then s8 ++ List.replicate (4 - s8.length % 4) 0 else s8
  cursorWrite p s8

/-- Rust cast `(x : i64ish) as usize` for the `(read_i32()? + 1) as usize`
expression in the string readers. -/
def intAsU64 (x : Int) : Nat := (x % 2 ^ 64).toNat

/-- `Parcel::read_str16`: read the i32 length, then `(len + 1) * 2` bytes
(with the aligned `read`), decode UTF-16, and truncate to `len - 1`
(UTF-8) bytes, dropping the terminator. -/
def read_str16 (p : Parcel) : Except Error (List Nat × Parcel) := do
  let (n, p) ← p.read_i32
  let len := intAsU64 (n + 1)
  if len = 0 then
    return ([], p)
  let (bytes, p) ← p.read (len * 2)
  let s ← decodeUtf16 (chunks2ToU16 bytes)
  return (truncateUtf8 s (len - 1), p)

/-- `STRICT_MODE_PENALTY_GATHER`: the Rust constant `1 << 31` on `i32`,
that is `i32::MIN`. -/
def strictModePenaltyGather : Int := -(2 ^ 31)

/-- The `"SYST"` interface-token marker. -/
def header : Int := 0x53595354

/-- `STRICT_MODE_PENALTY_GATHER | 0x42000004`: the operands have disjoint
bit patterns (the sign bit against low bits), so the bitwise OR equals the
sum, i.e. the `i32` with bit pattern `0xC2000004`. -/
def strictModePolicy : Int := strictModePenaltyGather + 0x42000004

/-- `Parcel::write_interface_token`: strict-mode policy word, work-source
uid `-1`, the `"SYST"` marker, then the UTF-16 interface name. -/
def write_interface_token (p : Parcel) (name : List Nat) : Parcel :=
  (((p.write_i32 strictModePolicy).write_i32 (-1)).write_i32 header).write_str16 name

end Parcel

/-! ## Parcelable implementations (`src/parcelable.rs`) -/

/-- `impl Parcelable for u8`, serialize. -/
def parcelableU8Serialize (v : Nat) (p : Parcel) : Parcel := p.write_u8 v

/-- `impl Parcelable for u8`, deserialize. -/
def parcelableU8Deserialize (p : Parcel) : Except Error (Nat × Parcel) := p.read_u8

/-- `impl<T> Parcelable for Vec<T>`, serialize: an i32 element count, then
each element in order via its own serializer. -/
def parcelableVecSerialize (ser : α → Parcel → Parcel) (l : List α) (p : Parcel) : Parcel :=
  l.foldl (fun q v => ser v q) (p.write_i32 (usizeAsI32 l.length))

/-- `Vec<u8>` serialization (the generic `Vec` impl at `T = u8`). -/
def vecU8Serialize (l : List Nat) (p : Parcel) : Parcel :=
  parcelableVecSerialize parcelableU8Serialize l p

/-! ### The `f32` impl

`implement_primitve!(f32, read_u32, u32, write_u32)` expands to
`serialize = write_u32(*self as u32)` and `deserialize = read_u32()? as f32`.
Rust's `as` between floats and integers is a NUMERIC cast: float → int
truncates toward zero and saturates; int → float rounds to nearest.  We
model `f32` values by the rationals they denote; the int → float direction
is modelled as exact, which is correct for integers below `2^24`. -/

/-- Rust numeric cast `f32 as u32`: truncate toward zero, saturating to
`[0, 2^32 - 1]` (negative values saturate to 0, so the floor/truncation
difference on negatives is immaterial). -/
def f32AsU32 (x : ℚ) : Nat := min (2 ^ 32 - 1) (max 0 ⌊x⌋).toNat

/-- Rust numeric cast `u32 as f32`, exact for values below `2^24`. -/
def u32AsF32 (n : Nat) : ℚ := n

/-- `impl Parcelable for f32`, serialize. -/
def parcelableF32Serialize (x : ℚ) (p : Parcel) : Parcel := p.write_u32 (f32AsU32 x)

/-- `impl Parcelable for f32`, deserialize. -/
def parcelableF32Deserialize (p : Parcel) : Except Error (ℚ × Parcel) :=
  p.read_u32.map fun y => (u32AsF32 y.1, y.2)

/-! ## The Parcelable code generator for tagged unions
(`src/parcelable_derive/src/lib.rs`)

The generator is modelled by the semantics of the code it emits.  An enum
declaration is described by the list of per-variant optional
`#[parcelable(discriminator = k)]` attributes, in declaration order; the
payload of a variant is abstracted as a writer (serialize) or a list of
per-variant readers (deserialize). -/

/-- The discriminator the generator uses for variant `i`: the declared
value when the attribute is present, otherwise the zero-based declaration
index cast to `i32`. -/
def enumVariantDisc (discs : List (Option Int)) (i : Nat) : Int :=
  match discs.getD i none with
  | some k => k
  | none => (i : Int)

/-- The emitted `serialize` body for a value of variant `i`:
`parcel.write_i32(#discriminator)` followed by the variant payload. -/
def enumSerialize (discs : List (Option Int)) (i : Nat) (payload : Parcel → Parcel)
    (p : Parcel) : Parcel :=
  payload (p.write_i32 (enumVariantDisc discs i))

/-- The emitted `deserialize` body: `match parcel.read_i32()?` against
each variant's discriminator in declaration order, falling through to
`Err(Error::BadEnumValue)`. -/
def enumDeserialize (discs : List (Option Int)) (payload : Nat → Parcel → Except Error (α × Parcel))
    (p : Parcel) : Except Error ((Nat × α) × Parcel) := do
  let (v, p1) ← p.read_i32
  match (List.range discs.length).find? (fun i => enumVariantDisc discs i == v) with
  | some i => (payload i p1).map fun x => ((i, x.1), x.2)
  | none => .error .BadEnumValue

/-! ## Binder driver client (`src/binder.rs`) -/

/-- `pack_chars!`. -/
def packChars (c1 c2 c3 c4 : Nat) : Nat := (c1 <<< 24) ||| (c2 <<< 16) ||| (c3 <<< 8) ||| c4

/-- `_iow!` from `src/binder.rs` (args: type char, nr, size). -/
def iowEnc (c1 c2 c3 : Nat) : Nat := (0x40 <<< 24) ||| (c3 <<< 16) ||| (c1 <<< 8) ||| c2

/-- `_ior!` from `src/binder.rs`. -/
def iorEnc (c1 c2 c3 : Nat) : Nat := (0x80 <<< 24) ||| (c3 <<< 16) ||| (c1 <<< 8) ||| c2

/-- `_io!` from `src/binder.rs`. -/
def ioEnc (c1 c2 : Nat) : Nat := (c1 <<< 8) ||| c2

/-- Binder flat-object type tags (`TF_*`); `b's' = 115`, `b'b' = 98`,
`b'w' = 119`, `b'h' = 104`, `b'f' = 102`, `b'd' = 100`, `b'a' = 97`,
`b'p' = 112`, `b't' = 116`, `b'*' = 42`, `BINDER_TYPE_LARGE = 0x85`. -/
def TF_BINDER : Nat := packChars 115 98 42 0x85

def TF_FD : Nat := packChars 102 100 42 0x85

/-- Outbound (`BC_*`) command opcodes; `b'c' = 99`. -/
def BC_TRANSACTION : Nat := iowEnc 99 0 0x40

def BC_REPLY : Nat := iowEnc 99 1 0x40

def BC_INCREFS : Nat := iowEnc 99 4 0x4

def BC_INCREFS_DONE : Nat := iowEnc 99 8 0x10

/-- Inbound (`BR_*`) return opcodes; `b'r' = 114`. -/
def BR_ERROR : Nat := iorEnc 114 0 4

def BR_OK : Nat := iorEnc 114 1 0

def BR_TRANSACTION : Nat := iorEnc 114 2 0x40

def BR_REPLY : Nat := iorEnc 114 3 0x40

def BR_ACQUIRE_RESULT : Nat := iorEnc 114 4 0x4

def BR_DEAD_REPLY : Nat := ioEnc 114 5

def BR_TRANSACTION_COMPLETE : Nat := ioEnc 114 6

def BR_INCREFS : Nat := iorEnc 114 7 0x10

def BR_ACQUIRE : Nat := iorEnc 114 8 0x10

def BR_RELEASE : Nat := iorEnc 114 9 0x10

def BR_DECREFS : Nat := iorEnc 114 10 0x10

def BR_ATTEMPT_ACQUIRE : Nat := iorEnc 114 11 0xc

def BR_NOOP : Nat := ioEnc 114 12

def BR_SPAWN_LOOPER : Nat := ioEnc 114 13

def BR_FINISHED : Nat := ioEnc 114 14

def BR_DEAD_BINDER : Nat := iorEnc 114 15 0x8

def BR_CLEAR_DEATH_NOTIFICATION_DONE : Nat := iorEnc 114 16 0x8

def BR_FAILED_REPLY : Nat := ioEnc 114 17

def BR_FROZEN_REPLY : Nat := ioEnc 114 18

def BR_ONEWAY_SPAM_SUSPECT : Nat := ioEnc 114 19

/-- `enum BinderDriverReturnProtocol`. -/
inductive BinderDriverReturnProtocol
  | Error
  | Ok
  | Transaction
  | Reply
  | AcquireResult
  | DeadReply
  | TransactionComplete
  | IncRefs
  | Acquire
  | Release
  | DecRefs
  | AttemptAcquire
  | Noop
  | SpawnLooper
  | Finished
  | DeadBinder
  | ClearDeathNotification
  | FailedReply
  | FrozenReply
  | OnwaySpamSuspect
deriving DecidableEq

/-- `BinderDriverReturnProtocol::from_u32` (the `FromPrimitive` derive):
match the discriminant values, `None` otherwise. -/
def brFromU32 (n : Nat) : Option BinderDriverReturnProtocol :=
  if n = BR_ERROR then some .Error
  else if n = BR_OK then some .Ok
  else if n = BR_TRANSACTION then some .Transaction
  else if n = BR_REPLY then some .Reply
  else if n = BR_ACQUIRE_RESULT then some .AcquireResult
  else if n = BR_DEAD_REPLY then some .DeadReply
  else if n = BR_TRANSACTION_COMPLETE then some .TransactionComplete
  else if n = BR_INCREFS then some .IncRefs
  else if n = BR_ACQUIRE then some .Acquire
  else if n = BR_RELEASE then some .Release
  else if n = BR_DECREFS then some .DecRefs
  else if n = BR_ATTEMPT_ACQUIRE then some .AttemptAcquire
  else if n = BR_NOOP then some .Noop
  else if n = BR_SPAWN_LOOPER then some .SpawnLooper
  else if n = BR_FINISHED then some .Finished
  else if n = BR_DEAD_BINDER then some .DeadBinder
  else if n = BR_CLEAR_DEATH_NOTIFICATION_DONE then some .ClearDeathNotification
  else if n = BR_FAILED_REPLY then some .FailedReply
  else if n = BR_FROZEN_REPLY then some .FrozenReply
  else if n = BR_ONEWAY_SPAM_SUSPECT then some .OnwaySpamSuspect
  else none

/-- `struct BinderTransactionData` (`#[repr(C)]`, 64 bytes: 4 bytes of
padding sit between `target` and `cookie`). -/
structure BinderTransactionData where
  target : Nat
  cookie : Nat
  code : Nat
  flags : Nat
  sender_pid : Nat
  sender_euid : Nat
  data_size : Nat
  offset_size : Nat
  dataPtr : Nat
  offsetsPtr : Nat
deriving DecidableEq

/-- Decode a `BinderTransactionData` from its 64 raw in-memory bytes
(little-endian fields at their `#[repr(C)]` offsets). -/
def decodeTxnData (b : List Nat) : BinderTransactionData :=
  { target := leVal (b.take 4)
    cookie := leVal ((b.drop 8).take 8)
    code := leVal ((b.drop 16).take 4)
    flags := leVal ((b.drop 20).take 4)
    sender_pid := leVal ((b.drop 24).take 4)
    sender_euid := leVal ((b.drop 28).take 4)
    data_size := leVal ((b.drop 32).take 8)
    offset_size := leVal ((b.drop 40).take 8)
    dataPtr := leVal ((b.drop 48).take 8)
    offsetsPtr := leVal ((b.drop 56).take 8) }

/-- The raw `#[repr(C)]` bytes of an outbound `BinderTransactionData`
(the 4 padding bytes are modelled as zeros). -/
def txnDataBytes (t : BinderTransactionData) : List Nat :=
  leBytes 4 t.target ++ leBytes 4 0 ++ leBytes 8 t.cookie ++ leBytes 4 t.code ++
    leBytes 4 t.flags ++ leBytes 4 t.sender_pid ++ leBytes 4 t.sender_euid ++
    leBytes 8 t.data_size ++ leBytes 8 t.offset_size ++ leBytes 8 t.dataPtr ++
    leBytes 8 t.offsetsPtr

/-- `Parcel::write_transaction_data`: `write` of the struct's raw bytes
(64 bytes, already 4-aligned). -/
def Parcel.write_transaction_data (p : Parcel) (t : BinderTransactionData) : Parcel :=
  p.write (txnDataBytes t)

/-- `Parcel::read_transaction_data` / `read_object::<BinderTransactionData>`:
an UNCHECKED raw read of 64 bytes at the cursor.  Reading past the end of
the buffer is undefined behaviour in the source; it is modelled as a
deserialization error (none of the executions considered here reach it). -/
def Parcel.read_transaction_data (p : Parcel) : Except Error (BinderTransactionData × Parcel) :=
  if p.pos + 64 ≤ p.data.length then
    .ok (decodeTxnData ((p.data.drop p.pos).take 64), { p with pos := p.pos + 64 })
  else .error .DeserializationError

/-- `Parcel::from_data_and_offsets`: rebuild a parcel from raw pointers
into the driver mapping.  `mem` is the process memory, byte by byte. -/
def Parcel.from_data_and_offsets (mem : Nat → Nat) (dataPtr dataSize offsetsPtr offsetsSize : Nat) :
    Parcel :=
  { data := (List.range dataSize).map fun i => mem (dataPtr + i) % 256
    pos := 0
    object_offsets :=
      (List.range offsetsSize).map fun i =>
        leVal ((List.range 8).map fun j => mem (offsetsPtr + 8 * i + j) % 256) }

/-- The two `panic!` sites in `Binder::proccess_incoming`. -/
inductive PanicReason
  | deadReply
  | transactionFailed
deriving DecidableEq

/-- Outcome of a call that may return a value, propagate an `Error`, or
panic. -/
inductive BinderStep (α : Type)
  | ok (a : α)
  | err (e : Error)
  | panicked (r : PanicReason)
deriving DecidableEq

/-- `Binder::proccess_incoming` (sic).  The state of the client is its
`pending_out_data` parcel, threaded through explicitly; the body never
touches it.  Each `parcel_in.read_u32()?` / `read_i32()?` is unfolded to
its bounds check (`.err` on a short buffer, as `?` propagates the
`byteorder` EOF error); the payload value of `AcquireResult` and `Error`
frames is read and discarded (the `Error` value is only printed). -/
def proccess_incoming (mem : Nat → Nat) (pending_out_data : Parcel) (parcel_in : Parcel) :
    BinderStep (Option BinderTransactionData × Parcel) × Parcel :=
  if parcel_in.has_unread_data then
    -- let cmd_u32 = parcel_in.read_u32()?
    if h4 : parcel_in.pos + 4 ≤ parcel_in.data.length then
      let cmdU32 := leVal ((parcel_in.data.drop parcel_in.pos).take 4)
      let p1 : Parcel := { parcel_in with pos := parcel_in.pos + 4 }
      match brFromU32 cmdU32 with
      | some .TransactionComplete => proccess_incoming mem pending_out_data p1
      | some .DeadReply => (.panicked .deadReply, pending_out_data)
      | some .FailedReply => (.panicked .transactionFailed, pending_out_data)
      | some .IncRefs =>
        -- log::info! only: the 16-byte payload is not consumed and no
        -- IncRefsDone is queued
        proccess_incoming mem pending_out_data p1
      | some .Acquire => proccess_incoming mem pending_out_data p1
      | some .AcquireResult =>
        -- parcel_in.read_i32()?
        if p1.pos + 4 ≤ p1.data.length then
          proccess_incoming mem pending_out_data { p1 with pos := p1.pos + 4 }
        else (.err .StdioError, pending_out_data)
      | some .Reply | some .Transaction =>
        match p1.read_transaction_data with
        | .ok (td, _) =>
          (.ok (some td,
            Parcel.from_data_and_offsets mem td.dataPtr td.data_size td.offsetsPtr
              (td.offset_size / 8)), pending_out_data)
        | .error e => (.err e, pending_out_data)
      | some .Error =>
        -- println!("Got an error {}", parcel_in.read_i32()?): printed, not
        -- surfaced, and the loop continues
        if p1.pos + 4 ≤ p1.data.length then
          proccess_incoming mem pending_out_data { p1 with pos := p1.pos + 4 }
        else (.err .StdioError, pending_out_data)
      | some .Noop => proccess_incoming mem pending_out_data p1
      | some .SpawnLooper => proccess_incoming mem pending_out_data p1
      | some _ => proccess_incoming mem pending_out_data p1
      | none => proccess_incoming mem pending_out_data p1
    else (.err .StdioError, pending_out_data)
  else (.ok (none, Parcel.empty), pending_out_data)
termination_by parcel_in.data.length - parcel_in.pos
decreasing_by all_goals omega

/-- `TransactionFlags::AcceptFds` (bitflags). -/
def acceptFds : Nat := 0x10

/-- The transaction descriptor `Binder::transact` builds before flushing:
caller flags OR'ed with `AcceptFds`, null data/offsets pointers for empty
payloads.  `dataAddr` / `offsetsAddr` stand for the addresses of the
parcel's buffers. -/
def transactDescriptor (handle : Int) (code : Nat) (flags : Nat) (data : Parcel)
    (dataAddr offsetsAddr : Nat) : BinderTransactionData :=
  { target := i32AsU32 handle
    code := code
    flags := Nat.lor acceptFds flags
    cookie := 0
    sender_pid := 0
    sender_euid := 0
    data_size := data.len
    offset_size := data.offsets_len * 8
    dataPtr := if ¬ data.is_empty then dataAddr else 0
    offsetsPtr := if data.offsets_len ≠ 0 then offsetsAddr else 0 }

/-- The descriptor `Binder::reply` builds: target `0xffffffff`, code 0,
the caller's flags passed through verbatim. -/
def replyDescriptor (flags : Nat) (data : Parcel) (dataAddr offsetsAddr : Nat) :
    BinderTransactionData :=
  { target := 0xffffffff
    code := 0
    flags := flags
    cookie := 0
    sender_pid := 0
    sender_euid := 0
    data_size := data.len
    offset_size := data.offsets_len * 8
    dataPtr := if ¬ data.is_empty then dataAddr else 0
    offsetsPtr := if data.offsets_len ≠ 0 then offsetsAddr else 0 }

/-! ### Flat objects

`BinderFlatObject` derives `Parcelable` with the container attribute
`#[parcelable(push_object = true)]`.  The derive macro, however, parses
`parcelable` attributes only on enum VARIANTS (and only the
`discriminator` key); container attributes are never inspected, so the
emitted `serialize` is the plain field-by-field struct serializer and
pushes NO object offset. -/

structure BinderFlatObject where
  binder_type : Nat
  flags : Nat
  handle : Nat
  cookie : Nat
  stability : Nat
deriving DecidableEq

/-- `BinderFlatObject::new` (stability is always `0xc`, "SYSTEM"). -/
def BinderFlatObject.new (binder_type handle cookie : Nat) (flags : Nat) : BinderFlatObject :=
  { binder_type := binder_type, flags := flags, handle := handle, cookie := cookie,
    stability := 0xc }

/-- The `serialize` the derive macro emits for `BinderFlatObject`: the
five fields in declaration order (`BinderType` serializes as its `u32`
tag, `usize` as 8 bytes); the ignored `push_object` attribute means no
offset is recorded. -/
def binderFlatObjectSerialize (o : BinderFlatObject) (p : Parcel) : Parcel :=
  ((((p.write_u32 o.binder_type).write_u32 o.flags).write_usize o.handle).write_usize
      o.cookie).write_u32 o.stability

/-- `Parcel::write_binder`: serialize a strong binder flat object for a
local object address. -/
def Parcel.write_binder (p : Parcel) (objectAddr : Nat) : Parcel :=
  binderFlatObjectSerialize (BinderFlatObject.new TF_BINDER objectAddr 0 0) p

/-- `Parcel::write_file_descriptor`. -/
def Parcel.write_file_descriptor (p : Parcel) (fd : Nat) (take_ownership : Bool) : Parcel :=
  binderFlatObjectSerialize
    (BinderFlatObject.new TF_FD fd (if take_ownership then 1 else 0) 0x17f) p

/-! ### Lemmas about the inbound-command loop -/

/-- The inbound commands whose arm neither returns, reads a payload, nor
panics — the loop just moves to the next `u32` (this includes unknown
opcodes, which are skipped). -/
def brSkips (v : Nat) : Bool :=
  match brFromU32 v with
  | none => true
  | some .TransactionComplete => true
  | some .IncRefs => true
  | some .Acquire => true
  | some .Noop => true
  | some .SpawnLooper => true
  | some .Ok => true
  | some .Release => true
  | some .DecRefs => true
  | some .AttemptAcquire => true
  | some .Finished => true
  | some .DeadBinder => true
  | some .ClearDeathNotification => true
  | some .FrozenReply => true
  | some .OnwaySpamSuspect => true
  | _ => false

theorem pow_256_4 : (256 : Nat) ^ 4 = 2 ^ 32 := by norm_num

/-- One loop iteration on a skipped command consumes exactly its 4 opcode
bytes. -/
theorem proccess_incoming_step_skip (mem : Nat → Nat) (po p : Parcel) (v : Nat)
    (h4 : (p.data.drop p.pos).take 4 = leBytes 4 v) (hv : v < 2 ^ 32)
    (hle : p.pos + 4 ≤ p.data.length)
    (hs : brSkips v = true) :
    proccess_incoming mem po p = proccess_incoming mem po { p with pos := p.pos + 4 } := by
  have hv' : v < 256 ^ 4 := by rw [pow_256_4]; omega
  rw [proccess_incoming.eq_def]
  have hur : p.has_unread_data = true := by
    simp [Parcel.has_unread_data]; omega
  rw [if_pos hur, dif_pos hle]
  simp only [h4, leVal_leBytes hv']
  cases hbr : brFromU32 v with
  | none => rfl
  | some c =>
    cases c <;> first
      | rfl
      | (exfalso; simp [brSkips, hbr] at hs)

/-- One loop iteration on an `Error` or `AcquireResult` command consumes
the opcode and its `i32` payload — 8 bytes — and continues. -/
theorem proccess_incoming_step_read4 (mem : Nat → Nat) (po p : Parcel) (v : Nat)
    (h4 : (p.data.drop p.pos).take 4 = leBytes 4 v) (hv : v < 2 ^ 32)
    (hle : p.pos + 8 ≤ p.data.length)
    (hc : brFromU32 v = some .Error ∨ brFromU32 v = some .AcquireResult) :
    proccess_incoming mem po p = proccess_incoming mem po { p with pos := p.pos + 8 } := by
  have hv' : v < 256 ^ 4 := by rw [pow_256_4]; omega
  rw [proccess_incoming.eq_def]
  have hur : p.has_unread_data = true := by
    simp [Parcel.has_unread_data]; omega
  rw [if_pos hur, dif_pos (by omega)]
  simp only [h4, leVal_leBytes hv']
  have h44 : p.pos + 4 + 4 = p.pos + 8 := by omega
  rcases hc with hbr | hbr <;>
    (rw [hbr]; simp only [h44]; rw [if_pos (by omega)])

/-- A fully-consumed inbound buffer yields `(None, Parcel::empty())`. -/
theorem proccess_incoming_drained (mem : Nat → Nat) (po p : Parcel)
    (h : p.pos = p.data.length) :
    proccess_incoming mem po p = (.ok (none, Parcel.empty), po) := by
  rw [proccess_incoming.eq_def]
  have hur : p.has_unread_data = false := by
    simp [Parcel.has_unread_data, h]
  rw [if_neg (by simp [hur])]

/-- `proccess_incoming` never writes to the pending outbound parcel: in
particular no `IncRefsDone` / `AcquireDone` answer is ever queued. -/
theorem proccess_incoming_pending_out (mem : Nat → Nat) (po p : Parcel) :
    (proccess_incoming mem po p).2 = po := by
  induction p using proccess_incoming.induct mem po <;>
    rw [proccess_incoming.eq_def] <;> (try simp_all) <;>
    first
      | (rename_i val hv1 hv2 hv3 hv4 hv5 hv6 hv7 hv8 hv9 hv10 hv11 hbr ih
         cases val <;> simp_all)
      | (rw [if_neg (by omega)])
      | (rw [if_pos (by assumption), dif_neg (by omega)])

/-! ## Claims -/

/-- C7: `transact` builds its transaction descriptor with the caller's
flags OR'ed with `AcceptFds`, whereas `reply` passes the caller's flags
through verbatim, targets `0xffffffff`, and uses code 0. -/
theorem c7_descriptor_flags :
    ∀ (handle : Int) (code flags : Nat) (data : Parcel) (dataAddr offsetsAddr : Nat),
      (transactDescriptor handle code flags data dataAddr offsetsAddr).flags =
          Nat.lor acceptFds flags ∧
        (transactDescriptor handle code flags data dataAddr offsetsAddr).code = code ∧
        (replyDescriptor flags data dataAddr offsetsAddr).flags = flags ∧
        (replyDescriptor flags data dataAddr offsetsAddr).target = 0xffffffff ∧
        (replyDescriptor flags data dataAddr offsetsAddr).code = 0 := by
  intro handle code flags data dataAddr offsetsAddr
  exact ⟨rfl, rfl, rfl, rfl, rfl⟩

set_option maxHeartbeats 400000 in
/-- C9: every primitive, string and plain-slice write leaves the
object-offsets table unchanged; `push_object` and `write_object` append
the current cursor position and `append_parcel` appends the relocated
source offsets.  However, the flat-object/file-descriptor helpers do NOT
extend the table: the derive macro ignores the
`#[parcelable(push_object = true)]` container attribute on
`BinderFlatObject`, so `write_binder` / `write_file_descriptor` push no
offset — evaluated at the failing input, serializing a flat object into
an empty parcel leaves the table empty. -/
theorem c9_offsets_frame :
    (∀ (p : Parcel) (v : Nat), (p.write_u8 v).object_offsets = p.object_offsets) ∧
    (∀ (p : Parcel) (v : Nat), (p.write_u16 v).object_offsets = p.object_offsets) ∧
    (∀ (p : Parcel) (v : Int), (p.write_i32 v).object_offsets = p.object_offsets) ∧
    (∀ (p : Parcel) (v : Nat), (p.write_u32 v).object_offsets = p.object_offsets) ∧
    (∀ (p : Parcel) (v : Nat), (p.write_u64 v).object_offsets = p.object_offsets) ∧
    (∀ (p : Parcel) (v : Nat), (p.write_usize v).object_offsets = p.object_offsets) ∧
    (∀ (p : Parcel) (b : Bool), (p.write_bool b).object_offsets = p.object_offsets) ∧
    (∀ (p : Parcel) (bs : List Nat), (p.write bs).object_offsets = p.object_offsets) ∧
    (∀ (p : Parcel) (s : List Nat), (p.write_str s).object_offsets = p.object_offsets) ∧
    (∀ (p : Parcel) (s : List Nat), (p.write_str16 s).object_offsets = p.object_offsets) ∧
    (∀ (p : Parcel) (s : List Nat),
      (p.write_interface_token s).object_offsets = p.object_offsets) ∧
    (∀ (p : Parcel) (t : BinderTransactionData),
      (p.write_transaction_data t).object_offsets = p.object_offsets) ∧
    (∀ (p : Parcel), p.push_object.object_offsets = p.object_offsets ++ [p.pos]) ∧
    (∀ (p : Parcel) (bs : List Nat),
      (p.write_object bs).object_offsets = p.object_offsets ++ [p.pos]) ∧
    (∀ (p other : Parcel),
      (p.append_parcel other).object_offsets =
        p.object_offsets ++ other.object_offsets.map (fun o => o + p.pos)) ∧
    (∀ (p : Parcel) (a : Nat), (p.write_binder a).object_offsets = p.object_offsets) ∧
    (∀ (p : Parcel) (fd : Nat) (own : Bool),
      (p.write_file_descriptor fd own).object_offsets = p.object_offsets) ∧
    (Parcel.empty.write_binder 7).object_offsets = [] := by
  refine ⟨fun p v => rfl, fun p v => rfl, fun p v => rfl, fun p v => rfl, fun p v => rfl,
    fun p v => rfl, fun p b => rfl, fun p bs => rfl, ?_, ?_, ?_, fun p t => rfl,
    fun p => rfl, fun p bs => rfl, fun p o => rfl, ?_, ?_, rfl⟩
  · intro p s
    simp only [Parcel.write_str, Parcel.write_i32, Parcel.cursorWrite]
  · intro p s
    simp only [Parcel.write_str16, Parcel.write_i32, Parcel.cursorWrite]
  · intro p s
    unfold Parcel.write_interface_token
    simp only [Parcel.write_str16, Parcel.write_i32, Parcel.cursorWrite]
  · intro p a
    simp only [Parcel.write_binder, binderFlatObjectSerialize, Parcel.write_u32,
      Parcel.write_usize, Parcel.cursorWrite]
  · intro p fd own
    simp only [Parcel.write_file_descriptor, binderFlatObjectSerialize, Parcel.write_u32,
      Parcel.write_usize, Parcel.cursorWrite]

/-- C5 counterexample: `append_parcel` writes at the CURSOR position of
the destination, not at its end.  For `p = from_slice [0xAA]` (cursor at
0) and `q = from_slice [0xBB, 0xCC]`, appending `q` to `p` OVERWRITES the
byte `0xAA`: the result is `[0xBB, 0xCC]`, not
`bytes(p) ++ bytes(q) = [0xAA, 0xBB, 0xCC]`. -/
theorem c5_append_counterexample :
    (Parcel.from_slice [0xAA]).append_parcel (Parcel.from_slice [0xBB, 0xCC]) =
        ⟨[0xBB, 0xCC], 2, []⟩ ∧
      ((Parcel.from_slice [0xAA]).append_parcel (Parcel.from_slice [0xBB, 0xCC])).data ≠
        [0xAA, 0xBB, 0xCC] := by
  constructor
  · rfl
  · decide

/-- C5 (amended): for every destination Parcel whose cursor sits at the
end of its buffer — the state every append-only write sequence produces —
appending `q` concatenates the byte buffers and appends `q`'s offsets
shifted by the destination's pre-append length. -/
theorem c5_append_parcel (p q : Parcel) (h : p.pos = p.data.length) :
    (p.append_parcel q).data = p.data ++ q.data ∧
    (p.append_parcel q).object_offsets =
      p.object_offsets ++ q.object_offsets.map (fun o => o + p.data.length) := by
  unfold Parcel.append_parcel
  rw [cursorWrite_append _ h, h]
  exact ⟨rfl, rfl⟩

/-- C5 witness: the spec's scenario S7 under the amended hypothesis:
`p = ⟨[0xAA], offsets [0]⟩` (cursor at the end), `q = ⟨[0xBB, 0xCC],
offsets [1]⟩` give bytes `AA BB CC` and offsets `[0, 2]`. -/
theorem c5_witness :
    ((Parcel.mk [0xAA] 1 [0]).append_parcel (Parcel.mk [0xBB, 0xCC] 2 [1])).data =
        [0xAA, 0xBB, 0xCC] ∧
      ((Parcel.mk [0xAA] 1 [0]).append_parcel (Parcel.mk [0xBB, 0xCC] 2 [1])).object_offsets =
        [0, 2] := by
  have h := c5_append_parcel (Parcel.mk [0xAA] 1 [0]) (Parcel.mk [0xBB, 0xCC] 2 [1]) (by decide)
  exact ⟨h.1.trans (by decide), h.2.trans (by decide)⟩

theorem i32AsU32_ofNat {n : Nat} (h : n < 2 ^ 32) : i32AsU32 (n : Int) = n := by
  unfold i32AsU32
  omega

/-- Serializing a list of `u8` values element by element appends exactly
those bytes. -/
theorem foldl_write_u8 (l : List Nat) (p : Parcel) (hp : p.pos = p.data.length)
    (hb : ∀ b ∈ l, b < 256) :
    (l.foldl (fun q v => q.write_u8 v) p).data = p.data ++ l ∧
      (l.foldl (fun q v => q.write_u8 v) p).pos = p.data.length + l.length := by
  induction l generalizing p with
  | nil => exact ⟨by simp, by simp [hp.symm]⟩
  | cons b t ih =>
    have hb256 : b % 256 = b := Nat.mod_eq_of_lt (hb b (by simp))
    have hw : p.write_u8 b =
        { data := p.data ++ [b], pos := p.data.length + 1,
          object_offsets := p.object_offsets } := by
      unfold Parcel.write_u8
      rw [cursorWrite_append _ hp, hb256]
      rfl
    have ih2 := ih (p.write_u8 b) (by rw [hw]; simp) (fun x hx => hb x (by simp [hx]))
    rw [List.foldl_cons]
    refine ⟨?_, ?_⟩
    · rw [ih2.1, hw]
      simp
    · rw [ih2.2, hw]
      simp
      omega

/-- C4 counterexample: the generic `Vec<T>` serializer writes `u8`
elements one byte each with NO zero-padding: `[1, 2, 3]` produces the
7 bytes `03 00 00 00 01 02 03`, not the 8 padded bytes the claim states. -/
theorem c4_vec_u8_counterexample :
    (vecU8Serialize [1, 2, 3] Parcel.empty).data = [3, 0, 0, 0, 1, 2, 3] ∧
      (vecU8Serialize [1, 2, 3] Parcel.empty).data ≠ [3, 0, 0, 0, 1, 2, 3, 0] := by
  constructor
  · rfl
  · decide

/-- C4 (amended): serializing a `Vec<u8>` writes a little-endian i32
element count followed by the elements as single bytes, with no padding:
exactly `4 + length` bytes are appended. -/
theorem c4_vec_u8_wire_format (l : List Nat) (p : Parcel) (hp : p.pos = p.data.length)
    (hb : ∀ b ∈ l, b < 256) (hl : l.length < 2 ^ 31) :
    (vecU8Serialize l p).data = p.data ++ leBytes 4 l.length ++ l := by
  unfold vecU8Serialize parcelableVecSerialize parcelableU8Serialize
  have hlen : p.write_i32 (usizeAsI32 l.length) =
      { data := p.data ++ leBytes 4 l.length, pos := p.data.length + 4,
        object_offsets := p.object_offsets } := by
    unfold Parcel.write_i32
    rw [usizeAsI32_small hl, i32AsU32_ofNat (by omega), cursorWrite_append _ hp,
      leBytes_length]
  rw [hlen]
  have := foldl_write_u8 l
    { data := p.data ++ leBytes 4 l.length, pos := p.data.length + 4,
      object_offsets := p.object_offsets } (by simp [leBytes_length]) hb
  rw [this.1, List.append_assoc]

/-- C4 witness: the amended wire format at the concrete input `[1, 2, 3]`. -/
theorem c4_witness : (vecU8Serialize [1, 2, 3] Parcel.empty).data = [3, 0, 0, 0, 1, 2, 3] :=
  (c4_vec_u8_wire_format [1, 2, 3] Parcel.empty (by decide) (by decide) (by decide)).trans
    (by decide)

/-- What a zero-initialised cursor read returns: a buffer of exactly the
requested size whose prefix holds the remaining parcel bytes and whose
tail is zero. -/
theorem cursorReadInto_spec (p : Parcel) (sz : Nat) :
    ((p.cursorReadInto (List.replicate sz 0)).1.length = sz) ∧
      (∀ i, i < sz →
        (p.cursorReadInto (List.replicate sz 0)).1[i]? =
          if p.pos + i < p.data.length then p.data[p.pos + i]? else some 0) := by
  unfold Parcel.cursorReadInto
  simp only [List.length_replicate]
  have hal : ((p.data.drop p.pos).take sz).length = min sz (p.data.length - p.pos) := by
    simp
  constructor
  · simp only [List.length_append, hal, List.length_drop, List.length_replicate]
    omega
  · intro i hi
    by_cases hc : i < min sz (p.data.length - p.pos)
    · have hltake : i < ((p.data.drop p.pos).take sz).length := by rw [hal]; exact hc
      rw [List.getElem?_append_left hltake, List.getElem?_take, if_pos hi,
        List.getElem?_drop, if_pos (by omega)]
    · have hgtake : ((p.data.drop p.pos).take sz).length ≤ i := by rw [hal]; omega
      rw [List.getElem?_append_right hgtake, if_neg (by rw [hal] at hgtake; omega),
        List.getElem?_drop, List.getElem?_replicate, if_pos (by rw [hal] at hgtake; omega)]

/-- C10: `Parcel::read` and `Parcel::read_without_alignment` always
return `Ok`, even when fewer unread bytes remain than requested: the
returned vector has exactly the requested length (rounded up to a
multiple of four for `read`), its prefix holds the remaining bytes, and
every position past the available bytes is zero. -/
theorem c10_bulk_reads :
    ∀ (p : Parcel) (n : Nat),
      (∃ v p1,
          p.read n = .ok (v, p1) ∧
            v.length = (if n % 4 ≠ 0 then n + 4 - n % 4 else n) ∧
            ∀ i, i < v.length →
              v[i]? = if p.pos + i < p.data.length then p.data[p.pos + i]? else some 0) ∧
      (∃ v p1,
          p.read_without_alignment n = .ok (v, p1) ∧
            v.length = n ∧
            ∀ i, i < v.length →
              v[i]? = if p.pos + i < p.data.length then p.data[p.pos + i]? else some 0) := by
  intro p n
  constructor
  · have hs := cursorReadInto_spec p (if n % 4 ≠ 0 then n + 4 - n % 4 else n)
    refine ⟨(p.cursorReadInto
        (List.replicate (if n % 4 ≠ 0 then n + 4 - n % 4 else n) 0)).1,
      (p.cursorReadInto
        (List.replicate (if n % 4 ≠ 0 then n + 4 - n % 4 else n) 0)).2,
      rfl, hs.1, fun i hi => hs.2 i ?_⟩
    rw [hs.1] at hi
    exact hi
  · have hs := cursorReadInto_spec p n
    refine ⟨(p.cursorReadInto (List.replicate n 0)).1,
      (p.cursorReadInto (List.replicate n 0)).2, rfl, hs.1, fun i hi => hs.2 i ?_⟩
    rw [hs.1] at hi
    exact hi

/-- C10 witness: reading 6 bytes from a parcel holding only 3 unread
bytes succeeds with an 8-byte zero-completed buffer whose position 5 is a
padding zero. -/
theorem c10_witness :
    ∃ v p1,
        (Parcel.from_slice [1, 2, 3]).read 6 = .ok (v, p1) ∧ v.length = 8 ∧
          v[5]? = some 0 := by
  obtain ⟨v, p1, hok, hlen, hget⟩ := (c10_bulk_reads (Parcel.from_slice [1, 2, 3]) 6).1
  refine ⟨v, p1, hok, ?_, ?_⟩
  · rw [hlen]
    decide
  · rw [hget 5 (by rw [hlen]; decide)]
    decide

instance {ε α : Type} [DecidableEq ε] [DecidableEq α] : DecidableEq (Except ε α) := fun a b =>
  match a, b with
  | .ok x, .ok y => decidable_of_iff (x = y) (by simp)
  | .error e, .error f => decidable_of_iff (e = f) (by simp)
  | .ok _, .error _ => isFalse (by simp)
  | .error _, .ok _ => isFalse (by simp)

/-- C1: the shipped `f32` Parcelable impl breaks the round-trip law.
`serialize(1.5f32)` performs the Rust NUMERIC cast `1.5 as u32 = 1` and
writes the u32 `1`; deserializing the resulting fresh parcel reads `1`
and casts it back to the float `1.0 ≠ 1.5`.  (The `f64` impl fails the
same way through `u64`; every other shipped impl round-trips.) -/
theorem c1_float_roundtrip_fails :
    parcelableF32Deserialize
        (Parcel.from_slice (parcelableF32Serialize (3 / 2 : ℚ) Parcel.empty).data) =
      .ok ((1 : ℚ), ⟨[1, 0, 0, 0], 4, []⟩) ∧ (1 : ℚ) ≠ (3 / 2 : ℚ) := by
  constructor
  · have hcast : f32AsU32 (3 / 2 : ℚ) = 1 := by unfold f32AsU32; norm_num
    unfold parcelableF32Serialize
    rw [hcast]
    have hdata : (Parcel.empty.write_u32 1).data = [1, 0, 0, 0] := by decide
    rw [hdata]
    unfold parcelableF32Deserialize Parcel.read_u32 Parcel.readExact u32AsF32
    norm_num [Parcel.from_slice, leVal, Except.map]
  · norm_num

theorem flatten_leBytes2_length (us : List Nat) :
    ((us.map (leBytes 2)).flatten).length = 2 * us.length := by
  induction us with
  | nil => rfl
  | cons u t ih =>
    simp only [List.map_cons, List.flatten_cons, List.length_append, leBytes_length, ih,
      List.length_cons]
    omega

/-- Structure of `write_str16` in the append-only state: the i32 prefix
holds the UTF-8 byte length, then come the UTF-16 code units (little
endian), the u16 terminator, and zero padding to a 4-byte boundary. -/
theorem write_str16_spec (p : Parcel) (s : List Nat) (hp : p.pos = p.data.length)
    (hl : utf8Len s < 2 ^ 31) :
    (p.write_str16 s).data =
      p.data ++ leBytes 4 (utf8Len s) ++
        (((encodeUtf16 s).map (leBytes 2)).flatten ++ leBytes 2 0 ++
          List.replicate ((4 - (2 * utf16Len s + 2) % 4) % 4) 0) := by
  unfold Parcel.write_str16
  have hlen : p.write_i32 (usizeAsI32 (utf8Len s)) =
      { data := p.data ++ leBytes 4 (utf8Len s), pos := p.data.length + 4,
        object_offsets := p.object_offsets } := by
    unfold Parcel.write_i32
    rw [usizeAsI32_small hl, i32AsU32_ofNat (by omega), cursorWrite_append _ hp,
      leBytes_length]
  rw [hlen]
  have hs16len : (((encodeUtf16 s).map (leBytes 2)).flatten ++ leBytes 2 0).length =
      2 * utf16Len s + 2 := by
    simp only [List.length_append, flatten_leBytes2_length, leBytes_length, utf16Len]
  have hpad :
      (if (((encodeUtf16 s).map (leBytes 2)).flatten ++ leBytes 2 0).length % 4 ≠ 0 then
          ((encodeUtf16 s).map (leBytes 2)).flatten ++ leBytes 2 0 ++
            List.replicate
              (4 - (((encodeUtf16 s).map (leBytes 2)).flatten ++ leBytes 2 0).length % 4) 0
        else ((encodeUtf16 s).map (leBytes 2)).flatten ++ leBytes 2 0) =
      ((encodeUtf16 s).map (leBytes 2)).flatten ++ leBytes 2 0 ++
        List.replicate ((4 - (2 * utf16Len s + 2) % 4) % 4) 0 := by
    rw [hs16len]
    by_cases hmod : (2 * utf16Len s + 2) % 4 = 0
    · rw [if_neg (by omega)]
      rw [show (4 - (2 * utf16Len s + 2) % 4) % 4 = 0 by omega]
      simp
    · rw [if_pos (by omega)]
      rw [show (4 - (2 * utf16Len s + 2) % 4) % 4 = 4 - (2 * utf16Len s + 2) % 4 by omega]
  simp only [hpad]
  have hw := @cursorWrite_append
    ⟨p.data ++ leBytes 4 (utf8Len s), p.data.length + 4, p.object_offsets⟩
    (((encodeUtf16 s).map (leBytes 2)).flatten ++ leBytes 2 0 ++
      List.replicate ((4 - (2 * utf16Len s + 2) % 4) % 4) 0)
    (by simp [leBytes_length])
  rw [hw, List.append_assoc]

/-- C6 counterexample: for the one-character string `"é"` (scalar value
`0xE9`, UTF-8 length 2, a SINGLE UTF-16 code unit) `write_str16` writes
the i32 `2` — `string.len()`, the UTF-8 byte count — which differs from
the number of UTF-16 code units, `1`. -/
theorem c6_str16_length_counterexample :
    ((Parcel.empty.write_str16 [0xE9]).data.take 4 = leBytes 4 2) ∧
      utf16Len [0xE9] = 1 ∧ utf8Len [0xE9] = 2 := by
  refine ⟨?_, rfl, rfl⟩
  decide

/-- C6 (amended): `write_str16` writes an i32 equal to the UTF-8 byte
length of the string (which equals the UTF-16 code-unit count exactly
when the string is ASCII), then the code units little-endian, a u16 zero
terminator, and zero padding to a four-byte boundary; `"Hi"` produces
exactly the 12 claimed bytes and reads back as `"Hi"`. -/
theorem c6_str16_wire_format :
    ((Parcel.empty.write_str16 [0x48, 0x69]).data =
        [2, 0, 0, 0, 0x48, 0, 0x69, 0, 0, 0, 0, 0]) ∧
      (Parcel.read_str16 (Parcel.from_slice [2, 0, 0, 0, 0x48, 0, 0x69, 0, 0, 0, 0, 0]) =
        .ok ([0x48, 0x69], ⟨[2, 0, 0, 0, 0x48, 0, 0x69, 0, 0, 0, 0, 0], 12, []⟩)) ∧
      (∀ (p : Parcel) (s : List Nat), p.pos = p.data.length → utf8Len s < 2 ^ 31 →
        ((p.write_str16 s).data.drop p.data.length).take 4 = leBytes 4 (utf8Len s) ∧
          ((p.write_str16 s).data.drop (p.data.length + 4)).take (2 * utf16Len s + 2) =
            ((encodeUtf16 s).map (leBytes 2)).flatten ++ leBytes 2 0 ∧
          ((p.write_str16 s).data.length - p.data.length) % 4 = 0) := by
  refine ⟨by decide, by decide, ?_⟩
  intro p s hp hl
  have hspec := write_str16_spec p s hp hl
  have hs16len : (((encodeUtf16 s).map (leBytes 2)).flatten ++ leBytes 2 0).length =
      2 * utf16Len s + 2 := by
    simp only [List.length_append, flatten_leBytes2_length, leBytes_length, utf16Len]
  refine ⟨?_, ?_, ?_⟩
  · rw [hspec, List.append_assoc, List.drop_left]
    exact List.take_left' (leBytes_length 4 (utf8Len s))
  · rw [hspec]
    rw [@List.drop_left' Nat (p.data ++ leBytes 4 (utf8Len s))
      (((encodeUtf16 s).map (leBytes 2)).flatten ++ leBytes 2 0 ++
        List.replicate ((4 - (2 * utf16Len s + 2) % 4) % 4) 0)
      (p.data.length + 4) (by simp [leBytes_length])]
    exact List.take_left' hs16len
  · rw [hspec]
    simp only [List.length_append, leBytes_length, List.length_replicate,
      flatten_leBytes2_length, utf16Len]
    omega

/-- C6 witness: the general wire-format facts instantiated at `"Hi"`
written into an empty parcel. -/
theorem c6_witness :
    ((Parcel.empty.write_str16 [0x48, 0x69]).data.drop Parcel.empty.data.length).take 4 =
        leBytes 4 (utf8Len [0x48, 0x69]) ∧
      ((Parcel.empty.write_str16 [0x48, 0x69]).data.length - Parcel.empty.data.length) % 4 =
        0 := by
  have h := c6_str16_wire_format.2.2 Parcel.empty [0x48, 0x69] (by decide) (by decide)
  exact ⟨h.1, h.2.2⟩

/-- C8: the code generator's tagged-union wire format.  Serializing
variant `i` first writes the little-endian i32 discriminator — the
declared value when a `discriminator` attribute is present, the
zero-based declaration index otherwise — then the variant payload; on
deserialization the i32 selects the first variant with that
discriminator, and a value matching no variant fails with
`Error::BadEnumValue`. -/
theorem c8_enum_discriminator :
    (∀ (discs : List (Option Int)) (i : Nat) (payBytes : List Nat) (p : Parcel),
        p.pos = p.data.length →
        (enumSerialize discs i (fun q => Parcel.cursorWrite q payBytes) p).data =
          p.data ++ leBytes 4 (i32AsU32 (enumVariantDisc discs i)) ++ payBytes) ∧
    (∀ (discs : List (Option Int)) (payload : Nat → Parcel → Except Error (Nat × Parcel))
        (k : Int) (rest : List Nat),
        -(2 ^ 31) ≤ k → k < 2 ^ 31 →
        (∀ i, i < discs.length → enumVariantDisc discs i ≠ k) →
        enumDeserialize discs payload (Parcel.from_slice (leBytes 4 (i32AsU32 k) ++ rest)) =
          .error .BadEnumValue) ∧
    (∀ (discs : List (Option Int)) (payload : Nat → Parcel → Except Error (Nat × Parcel))
        (k : Int) (rest : List Nat) (i0 : Nat),
        -(2 ^ 31) ≤ k → k < 2 ^ 31 →
        (List.range discs.length).find? (fun i => enumVariantDisc discs i == k) = some i0 →
        enumDeserialize discs payload (Parcel.from_slice (leBytes 4 (i32AsU32 k) ++ rest)) =
          (payload i0 ⟨leBytes 4 (i32AsU32 k) ++ rest, 4, []⟩).map
            fun x => ((i0, x.1), x.2)) := by
  have hread : ∀ (k : Int) (rest : List Nat), -(2 ^ 31) ≤ k → k < 2 ^ 31 →
      Parcel.read_i32 (Parcel.from_slice (leBytes 4 (i32AsU32 k) ++ rest)) =
        .ok (k, ⟨leBytes 4 (i32AsU32 k) ++ rest, 4, []⟩) := by
    intro k rest h1 h2
    unfold Parcel.read_i32 Parcel.readExact
    rw [if_pos (by simp [Parcel.from_slice, leBytes_length])]
    simp only [Parcel.from_slice, List.drop_zero, Except.map]
    rw [List.take_left' (leBytes_length 4 _),
      leVal_leBytes (by rw [pow_256_4]; exact i32AsU32_lt k), toSigned32_i32AsU32 h1 h2]
  refine ⟨?_, ?_, ?_⟩
  · intro discs i payBytes p hp
    unfold enumSerialize Parcel.write_i32
    rw [cursorWrite_append _ hp]
    beta_reduce
    rw [cursorWrite_append _ (by simp [leBytes_length])]
  · intro discs payload k rest h1 h2 hnone
    unfold enumDeserialize
    rw [hread k rest h1 h2]
    have hfind : (List.range discs.length).find? (fun i => enumVariantDisc discs i == k) =
        none := by
      rw [List.find?_eq_none]
      intro i hi
      simp only [beq_iff_eq]
      exact hnone i (List.mem_range.mp hi)
    simp [bind, Except.bind, hfind]
  · intro discs payload k rest i0 h1 h2 hfind
    unfold enumDeserialize
    rw [hread k rest h1 h2]
    simp [bind, Except.bind, hfind]

/-- C8 witness: the spec's S6 union `{ A, B(u32) = 5 }`.  `B(0x11)`
serializes to `05 00 00 00 11 00 00 00`, and the unknown discriminator
`7` fails with the bad-enum-value error. -/
theorem c8_witness :
    (enumSerialize [none, some 5] 1 (fun q => Parcel.cursorWrite q [0x11, 0, 0, 0])
        Parcel.empty).data = [5, 0, 0, 0, 0x11, 0, 0, 0] ∧
      enumDeserialize [none, some 5] (fun _ p => .ok (0, p))
          (Parcel.from_slice (leBytes 4 (i32AsU32 7) ++ [])) =
        .error .BadEnumValue := by
  constructor
  · exact (c8_enum_discriminator.1 [none, some 5] 1 [0x11, 0, 0, 0] Parcel.empty
      (by decide)).trans (by decide)
  · exact c8_enum_discriminator.2.1 [none, some 5] (fun _ p => .ok (0, p)) 7 []
      (by decide) (by decide) (by decide)

/-- C2: inbound reference-count commands are NOT answered.  The client's
processing of any inbound stream never touches the pending outbound
buffer, and for the concrete stream `IncRefs(ptr = 7, cookie = 0),
TransactionComplete` with an empty pending buffer, processing terminates
with the pending buffer still empty — no `IncRefsDone(7)` (nor any other
done command) is queued for the next flush.  (The `IncRefs` arm also
fails to consume its 16-byte payload, which is then misparsed as four
opcodes.) -/
theorem c2_increfs_unanswered :
    (∀ (mem : Nat → Nat) (po p : Parcel), (proccess_incoming mem po p).2 = po) ∧
      proccess_incoming (fun _ => 0) Parcel.empty
          (Parcel.from_slice
            (leBytes 4 BR_INCREFS ++ leBytes 8 7 ++ leBytes 8 0 ++
              leBytes 4 BR_TRANSACTION_COMPLETE)) =
        (.ok (none, Parcel.empty), Parcel.empty) := by
  refine ⟨proccess_incoming_pending_out, ?_⟩
  rw [proccess_incoming_step_skip _ _ _ BR_INCREFS (by decide) (by decide) (by decide)
    (by decide)]
  rw [proccess_incoming_step_skip _ _ _ 7 (by decide) (by decide) (by decide) (by decide)]
  rw [proccess_incoming_step_skip _ _ _ 0 (by decide) (by decide) (by decide) (by decide)]
  rw [proccess_incoming_step_skip _ _ _ 0 (by decide) (by decide) (by decide) (by decide)]
  rw [proccess_incoming_step_skip _ _ _ 0 (by decide) (by decide) (by decide) (by decide)]
  rw [proccess_incoming_step_skip _ _ _ BR_TRANSACTION_COMPLETE (by decide) (by decide)
    (by decide) (by decide)]
  exact proccess_incoming_drained _ _ _ (by decide)

/-- C3 counterexample: an inbound `Error(5)` frame is NOT surfaced to the
caller: its payload is printed and the loop continues, so processing the
buffer `[Error, 5]` returns the ordinary no-reply result
`Ok (None, Parcel::empty())` — the value 5 appears nowhere in the
outcome. -/
theorem c3_error_not_surfaced :
    proccess_incoming (fun _ => 0) Parcel.empty
        (Parcel.from_slice (leBytes 4 BR_ERROR ++ leBytes 4 5)) =
      (.ok (none, Parcel.empty), Parcel.empty) := by
  rw [proccess_incoming_step_read4 _ _ _ BR_ERROR (by decide) (by decide) (by decide)
    (Or.inl (by decide))]
  exact proccess_incoming_drained _ _ _ (by decide)

/-- C3 (amended): while iterating over the inbound buffer, an inbound
`Error(e)` frame has its i32 payload read and printed — not surfaced —
and the loop continues with the remaining commands; other non-terminal
commands (e.g. `Noop`) are processed and the loop continues; and when the
buffer drains without a reply the call returns `(None, empty Parcel)`. -/
theorem c3_error_logged_loop_continues :
    (∀ (mem : Nat → Nat) (po p : Parcel) (e : Nat) (rest : List Nat),
        p.data.drop p.pos = leBytes 4 BR_ERROR ++ leBytes 4 e ++ rest →
        proccess_incoming mem po p = proccess_incoming mem po { p with pos := p.pos + 8 }) ∧
    (∀ (mem : Nat → Nat) (po p : Parcel) (rest : List Nat),
        p.data.drop p.pos = leBytes 4 BR_NOOP ++ rest →
        proccess_incoming mem po p = proccess_incoming mem po { p with pos := p.pos + 4 }) ∧
    (∀ (mem : Nat → Nat) (po p : Parcel), p.pos = p.data.length →
        proccess_incoming mem po p = (.ok (none, Parcel.empty), po)) := by
  refine ⟨?_, ?_, proccess_incoming_drained⟩
  · intro mem po p e rest hdrop
    have hlen : p.data.length - p.pos = 8 + rest.length := by
      have h := congrArg List.length hdrop
      simp [leBytes_length] at h
      omega
    refine proccess_incoming_step_read4 mem po p BR_ERROR ?_ (by decide) (by omega)
      (Or.inl (by decide))
    rw [hdrop, List.append_assoc]
    exact List.take_left' (leBytes_length 4 _)
  · intro mem po p rest hdrop
    have hlen : p.data.length - p.pos = 4 + rest.length := by
      have := congrArg List.length hdrop
      simpa [leBytes_length] using this
    refine proccess_incoming_step_skip mem po p BR_NOOP ?_ (by decide) (by omega) (by decide)
    rw [hdrop]
    exact List.take_left' (leBytes_length 4 _)

/-- C3 witness: the continuation and drain facts at concrete inputs: an
`Error(5)` frame at the cursor advances it by 8 and a `Noop` frame by 4;
a drained two-frame buffer yields `(None, empty Parcel)`. -/
theorem c3_witness :
    (proccess_incoming (fun _ => 0) Parcel.empty
        ⟨leBytes 4 BR_ERROR ++ leBytes 4 5, 0, []⟩ =
      proccess_incoming (fun _ => 0) Parcel.empty
        ⟨leBytes 4 BR_ERROR ++ leBytes 4 5, 0 + 8, []⟩) ∧
    (proccess_incoming (fun _ => 0) Parcel.empty ⟨leBytes 4 BR_NOOP, 0, []⟩ =
      proccess_incoming (fun _ => 0) Parcel.empty ⟨leBytes 4 BR_NOOP, 0 + 4, []⟩) ∧
    (proccess_incoming (fun _ => 0) Parcel.empty
        ⟨leBytes 4 BR_ERROR ++ leBytes 4 5, 8, []⟩ =
      (.ok (none, Parcel.empty), Parcel.empty)) := by
  refine ⟨?_, ?_, ?_⟩
  · exact c3_error_logged_loop_continues.1 (fun _ => 0) Parcel.empty
      ⟨leBytes 4 BR_ERROR ++ leBytes 4 5, 0, []⟩ 5 [] (by decide)
  · exact c3_error_logged_loop_continues.2.1 (fun _ => 0) Parcel.empty
      ⟨leBytes 4 BR_NOOP, 0, []⟩ [] (by decide)
  · exact c3_error_logged_loop_continues.2.2 (fun _ => 0) Parcel.empty
      ⟨leBytes 4 BR_ERROR ++ leBytes 4 5, 8, []⟩ (by decide)

end BinderRust
